import Mathlib

/-!
Verification of the Crypto signals dashboard against its design document.

The repository ships the presentation layer (two vanilla-JS frontends and a
React frontend); the backend signal engine is described by the design document
but its code is not part of the checked-in sources.  We embed the JavaScript
functions shallowly: JS numbers become rationals, JS strings become `String`,
JS `Map` and the DOM card list become association lists, and `toFixed(4)`
becomes rounding to a multiple of 1/10000 (round half up, prices are
nonnegative).  Definitions follow the source files
`src/unnamed/part_001` (calcularAlvo, checkAlvosAtingidos),
`src/frontend/app.js` (updateSignalsSmooth, displaySignals, checkAlerts,
createSignalCard) and `src/frontend/src/App.js` / `HistoryChart.js`
(SignalCard, chart marker rendering).  Parts of the backend that the design
document specifies but that are absent from the sources (the stop side of the
Target Calculator and the History Store) are modelled from the document and
are marked as such.
-/

set_option maxHeartbeats 1000000

/-! ## String helpers mirroring the JavaScript primitives used by the code -/

/-- Boolean test that `pat` occurs at the start of `s` (on character lists). -/
def listStartsWith : List Char → List Char → Bool
  | _, [] => true
  | [], _ :: _ => false
  | c :: cs, d :: ds => c == d && listStartsWith cs ds

/-- Boolean substring test on character lists, mirroring JS `includes`. -/
def listContainsSub : List Char → List Char → Bool
  | [], pat => pat.isEmpty
  | s@(_ :: cs), pat => listStartsWith s pat || listContainsSub cs pat

/-- JS `s.includes(pat)`. -/
def strContains (s pat : String) : Bool :=
  listContainsSub s.data pat.data

/-- JS `parseInt` restricted to what the code feeds it: optional spaces and a
sign followed by leading digits; `none` models `NaN` (no digit found). -/
def jsParseInt (s : String) : Option Int :=
  let l := s.data.dropWhile (fun c => c == ' ')
  let signAndRest : Int × List Char :=
    match l with
    | '-' :: t => (-1, t)
    | '+' :: t => (1, t)
    | t => (1, t)
  let ds := signAndRest.2.takeWhile Char.isDigit
  if ds.isEmpty then none
  else some (signAndRest.1 * (ds.foldl (fun n c => 10 * n + (c.toNat - '0'.toNat)) 0 : Nat))

/-- JS `s.split(' ')[0]` as used by `SignalCard` in `src/frontend/src/App.js`. -/
def firstWord (s : String) : String :=
  String.mk (s.data.takeWhile (fun c => !(c == ' ')))

/-- JS `s.toUpperCase()` for the ASCII kind strings in use. -/
def strToUpper (s : String) : String :=
  String.mk (s.data.map Char.toUpper)

/-- JS `s.split(sep)[0]`: the characters before the first separator. -/
def splitHead (s : String) (sep : Char) : String :=
  String.mk (s.data.takeWhile (fun c => !(c == sep)))

/-- Numeric value of JS `x.toFixed(4)` followed by `parseFloat`: rounding to
four decimal places, half away from zero for the nonnegative prices in use. -/
def toFixed4 (q : ℚ) : ℚ :=
  ((round (q * 10000) : ℤ) : ℚ) / 10000

/-! ## The signal record as the frontends consume it -/

/-- A signal object as delivered by the `/signals` endpoint and consumed by
`src/unnamed/part_001` and `src/frontend/app.js`: `signal` is the kind string,
`confidence` is a string such as "7/10", `price` is the current price.  The
`pair` and `timestamp` fields are carried to show what `calcularAlvo` does not
depend on. -/
structure Sig where
  pair : String
  price : ℚ
  signal : String
  confidence : String
  timestamp : Nat
deriving DecidableEq

/-- Result record of `calcularAlvo`: the 4-decimal target value and the
percentage band. -/
structure Alvo where
  valor : ℚ
  percentual : Nat
deriving DecidableEq

/-- `parseInt(signal.confidence.split('/')[0])` from `src/unnamed/part_001`. -/
def confOf (s : Sig) : Option Int :=
  jsParseInt (splitHead s.confidence '/')

/-- The `margemPercentual` if-chain of `calcularAlvo`
(`src/unnamed/part_001` lines 24-28); `none` is the `NaN` case, in which every
comparison is false and the final `else` applies. -/
def margemOfConf : Option Int → Nat
  | none => 1
  | some c => if c ≥ 8 then 6 else if c ≥ 6 then 4 else if c ≥ 4 then 2 else 1

/-- Percentage band computed by `calcularAlvo` for a signal. -/
def margemOf (s : Sig) : Nat :=
  margemOfConf (confOf s)

/-- `calcularAlvo` from `src/unnamed/part_001` lines 20-43: parse the
confidence, pick the band, branch on the uppercased kind with substring tests,
and return the target rounded by `toFixed(4)` together with the band. -/
def calcularAlvo (s : Sig) : Alvo :=
  let m := margemOf s
  let signalType := strToUpper s.signal
  let valorAlvo : ℚ :=
    if strContains signalType "BUY" then s.price * (1 + (m : ℚ) / 100)
    else if strContains signalType "SELL" then s.price * (1 - (m : ℚ) / 100)
    else s.price
  { valor := toFixed4 valorAlvo, percentual := m }

/-! ## Spec-side models of the Target Calculator (design document section 4.3) -/

/-- Modelled from the spec: the confidence to percentage-band table of section
4.3, written with the band guards exactly as the document states them. -/
def specBandTable (c : Int) : Nat :=
  if 8 ≤ c then 6
  else if 6 ≤ c ∧ c < 8 then 4
  else if 4 ≤ c ∧ c < 6 then 2
  else 1

/-- Modelled from the spec: the backend Target Calculator of section 4.3,
`(kind, confidence, entry_price) to (target_price, stop_price)`; the stop side
of this contract has no implementation under the checked-in sources. -/
def specTargetStop (kind : String) (c : Int) (entry : ℚ) : Option ℚ × Option ℚ :=
  let pct : ℚ := (specBandTable c : ℚ)
  if kind = "BUY" then (some (entry * (1 + pct / 100)), some (entry * (1 - pct / 100)))
  else if kind = "SELL" then (some (entry * (1 - pct / 100)), some (entry * (1 + pct / 100)))
  else (none, none)

/-- What the frontend target machinery exposes for a signal: the card always
renders the `calcularAlvo` target (`createSignalCard` in
`src/unnamed/part_001` lines 150-167) and never renders any stop. -/
def frontTargetStop (s : Sig) : Option ℚ × Option ℚ :=
  (some (calcularAlvo s).valor, none)

/-! ## Basic facts about rounding and the band computation -/

theorem round_sub_half_lt (x : ℚ) : x - 1/2 < ((round x : ℤ) : ℚ) := by
  rw [round_eq]
  have h := Int.sub_one_lt_floor (x + 1/2)
  push_cast at h ⊢
  linarith

theorem toFixed4_gt (q : ℚ) : q - 1/20000 < toFixed4 q := by
  have h := round_sub_half_lt (q * 10000)
  unfold toFixed4
  linarith

theorem calcularAlvo_percentual (s : Sig) : (calcularAlvo s).percentual = margemOf s := rfl

theorem calcularAlvo_buy_valor (s : Sig)
    (h : strContains (strToUpper s.signal) "BUY" = true) :
    (calcularAlvo s).valor = toFixed4 (s.price * (1 + (margemOf s : ℚ) / 100)) := by
  simp only [calcularAlvo, h, if_true]

theorem calcularAlvo_sell_valor (s : Sig)
    (h1 : strContains (strToUpper s.signal) "BUY" = false)
    (h2 : strContains (strToUpper s.signal) "SELL" = true) :
    (calcularAlvo s).valor = toFixed4 (s.price * (1 - (margemOf s : ℚ) / 100)) := by
  simp only [calcularAlvo, h1, h2, if_true, Bool.false_eq_true, if_false]

theorem calcularAlvo_other_valor (s : Sig)
    (h1 : strContains (strToUpper s.signal) "BUY" = false)
    (h2 : strContains (strToUpper s.signal) "SELL" = false) :
    (calcularAlvo s).valor = toFixed4 s.price := by
  simp only [calcularAlvo, h1, h2, Bool.false_eq_true, if_false]

theorem margemOfConf_eq_specBandTable (c : Int) :
    margemOfConf (some c) = specBandTable c := by
  simp only [margemOfConf, specBandTable]
  split_ifs <;> omega

/-! ## Claim C1: the confidence to percentage band table -/

def sigBuy8 : Sig := ⟨"BTC/USDT", 2, "BUY", "8/10", 0⟩
def sigBuy7 : Sig := ⟨"BTC/USDT", 2, "BUY", "7/10", 0⟩
def sigBuy3 : Sig := ⟨"BTC/USDT", 2, "BUY", "3/10", 0⟩

/-- C1: for every signal whose confidence parses to the integer c, the
percentage band computed by calcularAlvo matches the spec table of section 4.3
exactly, and the boundaries are exact: confidence 8 gives 6, 7 gives 4, 3
gives 1. -/
theorem calcularAlvo_band_table :
    (∀ (s : Sig) (c : Int), confOf s = some c →
        (calcularAlvo s).percentual = specBandTable c) ∧
    (calcularAlvo sigBuy8).percentual = 6 ∧
    (calcularAlvo sigBuy7).percentual = 4 ∧
    (calcularAlvo sigBuy3).percentual = 1 := by
  refine ⟨fun s c h => ?_, by decide, by decide, by decide⟩
  rw [calcularAlvo_percentual, margemOf, h, margemOfConf_eq_specBandTable]

/-- Witness for C1 at the concrete signal with confidence "7/10". -/
theorem calcularAlvo_band_table_witness :
    (calcularAlvo sigBuy7).percentual = specBandTable 7 :=
  calcularAlvo_band_table.1 sigBuy7 7 (by decide)

/-! ## Claim C2: the worked example entry 2.00, confidence 7, kind BUY -/

/-- C2: at entry 2.00, confidence 7, kind BUY, the frontend target is
2.08 with a 4 percent band, and the spec-modelled Target Calculator gives
target 2.08 and stop 1.92. -/
theorem target_example_entry2_conf7_buy :
    (calcularAlvo sigBuy7).valor = 52/25 ∧
    (calcularAlvo sigBuy7).percentual = 4 ∧
    specTargetStop "BUY" 7 2 = (some (52/25), some (48/25)) := by
  refine ⟨?_, by decide, ?_⟩
  · rw [calcularAlvo_buy_valor _ (by decide)]
    have hm : margemOf sigBuy7 = 4 := by decide
    rw [hm]
    show toFixed4 ((2 : ℚ) * (1 + (4 : ℚ) / 100)) = 52/25
    norm_num [toFixed4, round_eq]
  · simp only [specTargetStop, specBandTable]
    norm_num

/-! ## Claim C3: the band formulas for BUY and SELL -/

def sigBuyThird : Sig := ⟨"BTC/USDT", 1/3, "BUY", "9/10", 0⟩

/-- C3 counterexample: at entry price 1/3 with confidence 9 (band 6 percent),
the BUY target returned by calcularAlvo is the 4-decimal rounding 3533/10000,
not the exact product (1/3) * (1 + 6/100) = 53/150, so the target does not
equal entry times (1 + pct/100) as claimed. -/
theorem calcularAlvo_target_exact_formula_cex :
    ¬ ((calcularAlvo sigBuyThird).valor
        = sigBuyThird.price * (1 + ((calcularAlvo sigBuyThird).percentual : ℚ) / 100)) := by
  rw [calcularAlvo_buy_valor _ (by decide), calcularAlvo_percentual]
  have hm : margemOf sigBuyThird = 6 := by decide
  rw [hm]
  show ¬ (toFixed4 ((1/3 : ℚ) * (1 + (6 : ℚ) / 100)) = (1/3 : ℚ) * (1 + (6 : ℚ) / 100))
  norm_num [toFixed4, round_eq]

/-- C3 (amended): for every entry price e > 0 and band pct determined by the
confidence via the spec table, the frontend BUY target equals the 4-decimal
rounding of e * (1 + pct/100) and the frontend SELL target equals the
4-decimal rounding of e * (1 - pct/100); the spec-modelled backend target and
stop are the exact symmetric values e * (1 +- pct/100), the stop side having
no frontend implementation. -/
theorem calcularAlvo_band_formula_rounded (s : Sig) (c : Int)
    (hc : confOf s = some c) (hp : 0 < s.price) :
    ((strContains (strToUpper s.signal) "BUY" = true →
        (calcularAlvo s).valor = toFixed4 (s.price * (1 + (specBandTable c : ℚ) / 100))) ∧
     (strContains (strToUpper s.signal) "BUY" = false →
      strContains (strToUpper s.signal) "SELL" = true →
        (calcularAlvo s).valor = toFixed4 (s.price * (1 - (specBandTable c : ℚ) / 100)))) ∧
    (specTargetStop "BUY" c s.price
        = (some (s.price * (1 + (specBandTable c : ℚ) / 100)),
           some (s.price * (1 - (specBandTable c : ℚ) / 100))) ∧
     specTargetStop "SELL" c s.price
        = (some (s.price * (1 - (specBandTable c : ℚ) / 100)),
           some (s.price * (1 + (specBandTable c : ℚ) / 100)))) := by
  have hm : margemOf s = specBandTable c := by
    rw [margemOf, hc, margemOfConf_eq_specBandTable]
  refine ⟨⟨fun hb => ?_, fun hb hs => ?_⟩, ?_, ?_⟩
  · rw [calcularAlvo_buy_valor _ hb, hm]
  · rw [calcularAlvo_sell_valor _ hb hs, hm]
  · simp +decide [specTargetStop]
  · simp +decide [specTargetStop]

/-- Witness for C3 (amended) at the concrete BUY signal with entry 2 and
confidence 7. -/
theorem calcularAlvo_band_formula_rounded_witness :
    (calcularAlvo sigBuy7).valor = toFixed4 (sigBuy7.price * (1 + (specBandTable 7 : ℚ) / 100)) :=
  ((calcularAlvo_band_formula_rounded sigBuy7 7 (by decide) (by norm_num [sigBuy7])).1.1) (by decide)

/-! ## Claim C4: what the target machinery returns for non-directional kinds -/

def sigHold7 : Sig := ⟨"BTC/USDT", 2, "HOLD", "7/10", 0⟩

/-- C4 counterexample: for a HOLD signal with entry price 2 the frontend
target machinery returns the entry price itself as the target value (and the
card renders it), not the pair (null, null) the claim demands. -/
theorem target_hold_not_null_cex :
    frontTargetStop sigHold7 ≠ (none, none) ∧
    (calcularAlvo sigHold7).valor = 2 ∧ (calcularAlvo sigHold7).percentual = 4 := by
  refine ⟨by simp [frontTargetStop], ?_, by decide⟩
  rw [calcularAlvo_other_valor _ (by decide) (by decide)]
  show toFixed4 (2 : ℚ) = 2
  norm_num [toFixed4, round_eq]

/-- C4 (amended): for every signal whose uppercased kind contains neither
"BUY" nor "SELL" (HOLD, ALERT, ERROR among them), calcularAlvo returns the
4-decimal rounding of the current price itself as the target, together with
the confidence band, and the frontend never exposes a stop; only the
spec-modelled backend Target Calculator returns (none, none) there. -/
theorem calcularAlvo_non_directional_returns_entry (s : Sig)
    (h1 : strContains (strToUpper s.signal) "BUY" = false)
    (h2 : strContains (strToUpper s.signal) "SELL" = false) :
    frontTargetStop s = (some (toFixed4 s.price), none) ∧
    (∀ (c : Int) (e : ℚ),
      specTargetStop "HOLD" c e = (none, none) ∧
      specTargetStop "ALERT" c e = (none, none) ∧
      specTargetStop "ERROR" c e = (none, none)) := by
  constructor
  · rw [frontTargetStop, calcularAlvo_other_valor _ h1 h2]
  · intro c e
    refine ⟨?_, ?_, ?_⟩ <;> simp +decide [specTargetStop]

/-- Witness for C4 (amended) at the concrete HOLD signal. -/
theorem calcularAlvo_non_directional_returns_entry_witness :
    frontTargetStop sigHold7 = (some (toFixed4 sigHold7.price), none) :=
  (calcularAlvo_non_directional_returns_entry sigHold7 (by decide) (by decide)).1

/-! ## Claim C5: calcularAlvo is a pure function of kind, confidence and price -/

/-- C5: the target computation depends only on the kind string, the confidence
string and the price: two signals agreeing on these three fields map to the
same (target, band) result, whatever their other fields or any other state. -/
theorem calcularAlvo_pure (s1 s2 : Sig) (hk : s1.signal = s2.signal)
    (hc : s1.confidence = s2.confidence) (hp : s1.price = s2.price) :
    calcularAlvo s1 = calcularAlvo s2 := by
  cases s1
  cases s2
  simp only at hk hc hp
  simp [calcularAlvo, margemOf, confOf, hk, hc, hp]

/-- Witness for C5: two signals differing in pair and timestamp but agreeing
on kind, confidence and price get identical targets. -/
theorem calcularAlvo_pure_witness :
    calcularAlvo ⟨"BTC/USDT", 2, "BUY", "7/10", 0⟩
      = calcularAlvo ⟨"ETH/USDT", 2, "BUY", "7/10", 99⟩ :=
  calcularAlvo_pure _ _ rfl rfl rfl

/-! ## Claim C6: chart markers come only from BUY or SELL history records -/

/-- Modelled from the spec: a HistoryRecord of the backend History Store
(section 3), flattened to the fields the chart dataset projection uses. -/
structure HistoryRecord where
  id : Nat
  pair : String
  kind : String
  price : ℚ
  timestamp : Nat
deriving DecidableEq

/-- A chart marker as served by `/history/chart_data` and consumed by
`HistoryChart`. -/
structure Marker where
  timestamp : Nat
  price : ℚ
  type : String
  text : String
deriving DecidableEq

/-- The chart dataset: price series plus marker overlays. -/
structure ChartDataset where
  prices : List (Nat × ℚ)
  markers : List Marker
deriving DecidableEq

/-- Modelled from the spec: `get_chart_dataset` of the History Store (section
4.5), absent from the checked-in sources; it filters the records of a pair to
BUY and SELL kinds and projects one marker per surviving record with a short
label. -/
def get_chart_dataset (records : List HistoryRecord) : ChartDataset :=
  { prices := records.map (fun r => (r.timestamp, r.price)),
    markers := (records.filter (fun r => r.kind == "BUY" || r.kind == "SELL")).map
      (fun r => { timestamp := r.timestamp, price := r.price, type := r.kind,
                  text := if r.kind == "BUY" then "B" else "S" }) }

/-- An apexcharts annotation point as built by `HistoryChart`
(`src/frontend/src/HistoryChart.js` lines 63-85 and
`src/frontend/src/App.js` lines 88-110). -/
structure AnnotPoint where
  x : Nat
  y : ℚ
  fillColor : String
  text : String
deriving DecidableEq

/-- The `annotations.points` mapping of `HistoryChart`: one point per marker,
green for BUY and red otherwise, no filtering of its own. -/
def chartAnnotPoints (markers : List Marker) : List AnnotPoint :=
  markers.map (fun m =>
    { x := m.timestamp, y := m.price,
      fillColor := if m.type == "BUY" then "#2ecc71" else "#e74c3c",
      text := m.text })

/-- C6: every annotation point the chart renders for a pair originates in a
BUY-kind or SELL-kind history record of that pair; HOLD, ALERT and ERROR
records never surface as chart markers. -/
theorem chart_markers_only_buy_sell (records : List HistoryRecord)
    (pt : AnnotPoint)
    (hpt : pt ∈ chartAnnotPoints (get_chart_dataset records).markers) :
    ∃ r ∈ records, (r.kind = "BUY" ∨ r.kind = "SELL") ∧
      pt.x = r.timestamp ∧ pt.y = r.price := by
  simp only [chartAnnotPoints, get_chart_dataset, List.mem_map] at hpt
  obtain ⟨m, hm, hpm⟩ := hpt
  obtain ⟨r, hr, hrm⟩ := hm
  rw [List.mem_filter] at hr
  refine ⟨r, hr.1, ?_, ?_, ?_⟩
  · have hk := hr.2
    simp only [Bool.or_eq_true, beq_iff_eq] at hk
    exact hk
  · rw [← hpm, ← hrm]
  · rw [← hpm, ← hrm]

def recBuy : HistoryRecord := ⟨1, "BTC/USDT", "BUY", 100, 5⟩
def recHold : HistoryRecord := ⟨2, "BTC/USDT", "HOLD", 101, 6⟩

/-- Witness for C6 on a concrete two-record history whose chart has exactly
one marker, produced by the BUY record. -/
theorem chart_markers_only_buy_sell_witness :
    ∃ r ∈ [recBuy, recHold], (r.kind = "BUY" ∨ r.kind = "SELL") ∧
      (5 : Nat) = r.timestamp ∧ (100 : ℚ) = r.price :=
  chart_markers_only_buy_sell [recBuy, recHold] ⟨5, 100, "#2ecc71", "B"⟩
    (by simp +decide [chartAnnotPoints, get_chart_dataset, recBuy, recHold])

/-! ## Claim C7: kind classification at the display boundary -/

/-- The `signalType` of `SignalCard` (`src/frontend/src/App.js` line 9):
the first space-separated word of the kind string. -/
def sigCardType (kind : String) : String :=
  firstWord kind

/-- The `isError` test of `SignalCard` (line 10): exact comparison. -/
def sigCardIsError (kind : String) : Bool :=
  firstWord kind == "ERROR"

/-- The `isSqueeze` test of `SignalCard` (line 11): exact comparison against
the Portuguese word "ALERTA". -/
def sigCardIsSqueeze (kind : String) : Bool :=
  firstWord kind == "ALERTA"

/-- The `signalType` classification of `createSignalCard`
(`src/frontend/app.js` lines 341-345): substring matching on the uppercased
kind, anything that is neither maps to HOLD. -/
def createCardType (kind : String) : String :=
  let signalType := strToUpper kind
  if strContains signalType "BUY" then "BUY"
  else if strContains signalType "SELL" then "SELL"
  else "HOLD"

/-- C7 counterexample: a signal whose kind is exactly the enumeration value
"ALERT" does not get the squeeze-alert display in the React card (the test
compares with "ALERTA"), and the vanilla frontend classifies it as HOLD by
substring matching, which also maps the free-text kind "STRONG BUY" to BUY. -/
theorem display_kind_alert_cex :
    sigCardIsSqueeze "ALERT" = false ∧ createCardType "ALERT" = "HOLD" ∧
    createCardType "STRONG BUY" = "BUY" := by
  refine ⟨by decide, by decide, by decide⟩

/-- C7 (amended): at the display boundary the React card classifies by exact
comparison on the first word of the kind: ERROR gets the error display, but
the squeeze display is keyed to "ALERTA" rather than "ALERT", so none of the
five enumeration kinds gets it; the vanilla frontend classifies by substring
matching, sending BUY and SELL to themselves and HOLD, ALERT and ERROR all to
HOLD. -/
theorem display_kind_classification_actual :
    (sigCardIsError "ERROR" = true ∧ sigCardIsSqueeze "ERROR" = false) ∧
    (sigCardIsError "ALERT" = false ∧ sigCardIsSqueeze "ALERT" = false) ∧
    (sigCardIsSqueeze "ALERTA" = true) ∧
    (sigCardType "BUY" = "BUY" ∧ sigCardType "SELL" = "SELL" ∧
     sigCardType "HOLD" = "HOLD" ∧ sigCardType "ALERT" = "ALERT" ∧
     sigCardType "ERROR" = "ERROR") ∧
    (createCardType "BUY" = "BUY" ∧ createCardType "SELL" = "SELL" ∧
     createCardType "HOLD" = "HOLD" ∧ createCardType "ALERT" = "HOLD" ∧
     createCardType "ERROR" = "HOLD") := by
  refine ⟨⟨by decide, by decide⟩, ⟨by decide, by decide⟩, by decide,
    ⟨by decide, by decide, by decide, by decide, by decide⟩,
    ⟨by decide, by decide, by decide, by decide, by decide⟩⟩

/-! ## Claim C8: updateSignalsSmooth and displaySignals render exactly the
non-ERROR pairs -/

/-- A JS `Map` from pair to signal as an association list in insertion order. -/
abbrev SigMap := List (String × Sig)

def mapKeys (m : SigMap) : List String :=
  m.map Prod.fst

/-- JS `map.has(k)`. -/
def mapHas (m : SigMap) (k : String) : Bool :=
  m.any (fun e => e.1 == k)

/-- JS `map.set(k, v)`: overwrite in place or append. -/
def mapSet (m : SigMap) (k : String) (v : Sig) : SigMap :=
  if mapHas m k then m.map (fun e => if e.1 == k then (k, v) else e)
  else m ++ [(k, v)]

/-- The screen state of `src/frontend/app.js`: the pairs having a rendered
card (in DOM order) and the `currentSignalsOnScreen` map. -/
structure Screen where
  cards : List String
  onScreen : SigMap
deriving DecidableEq

/-- One iteration of the `newSignalsMap` construction
(`src/frontend/app.js` lines 224-229): skip ERROR signals, key the rest by
pair. -/
def nmapStep (m : SigMap) (s : Sig) : SigMap :=
  if s.signal == "ERROR" then m else mapSet m s.pair s

/-- The construction of `newSignalsMap` (`src/frontend/app.js` lines
224-229): every non-ERROR signal is keyed by its pair. -/
def newSignalsMapOf (signals : List Sig) : SigMap :=
  signals.foldl nmapStep []

/-- One iteration of the first loop of `updateSignalsSmooth` (lines 232-249):
update or create the card for the pair and record the signal in the map. -/
def smoothStep (st : Screen) (e : String × Sig) : Screen :=
  { cards := if st.cards.any (fun q => q == e.1) then st.cards else st.cards ++ [e.1],
    onScreen := mapSet st.onScreen e.1 e.2 }

/-- `updateSignalsSmooth` (`src/frontend/app.js` lines 202-261): an empty
signal list clears the screen; otherwise the non-ERROR map is built, its
entries are upserted, and every on-screen pair absent from the new map has
its card removed and its map entry deleted. -/
def updateSignalsSmooth (st : Screen) (newSignals : List Sig) : Screen :=
  if newSignals.isEmpty then { cards := [], onScreen := [] }
  else
    let m := newSignalsMapOf newSignals
    let st1 := m.foldl smoothStep st
    { cards := st1.cards.filter (fun p => mapHas m p || !(mapHas st1.onScreen p)),
      onScreen := st1.onScreen.filter (fun e => mapHas m e.1) }

/-- One iteration of `displaySignals` (`src/frontend/app.js` lines 455-461):
skip ERROR signals, append a card and record the signal for the rest. -/
def dispStep (st : Screen) (s : Sig) : Screen :=
  if s.signal == "ERROR" then st
  else { cards := st.cards ++ [s.pair], onScreen := mapSet st.onScreen s.pair s }

/-- `displaySignals` (`src/frontend/app.js` lines 440-462): clear everything,
then append one card per non-ERROR signal and record it in the map. -/
def displaySignals (signals : List Sig) : Screen :=
  signals.foldl dispStep { cards := [], onScreen := [] }

/-- The pairs of the non-ERROR signals of a list. -/
def nonErrorPairs (signals : List Sig) : List String :=
  (signals.filter (fun s => !(s.signal == "ERROR"))).map Sig.pair

theorem mapHas_iff (m : SigMap) (k : String) :
    mapHas m k = true ↔ k ∈ mapKeys m := by
  simp only [mapHas, mapKeys, List.any_eq_true, List.mem_map, beq_iff_eq]

theorem mem_mapKeys_mapSet (m : SigMap) (k : String) (v : Sig) (p : String) :
    p ∈ mapKeys (mapSet m k v) ↔ p = k ∨ p ∈ mapKeys m := by
  cases h : mapHas m k with
  | true =>
    have hk : k ∈ mapKeys m := (mapHas_iff m k).mp h
    have hkeys : mapKeys (m.map (fun e => if e.1 == k then (k, v) else e)) = mapKeys m := by
      simp only [mapKeys, List.map_map]
      refine List.map_congr_left ?_
      intro e _
      by_cases h2 : e.1 = k
      · simp [Function.comp, h2]
      · simp [Function.comp, h2]
    rw [mapSet, if_pos h, hkeys]
    constructor
    · exact fun h3 => Or.inr h3
    · rintro (rfl | h3)
      · exact hk
      · exact h3
  | false =>
    rw [mapSet, if_neg (by simp [h])]
    simp only [mapKeys, List.map_append, List.mem_append, List.map_cons, List.map_nil,
      List.mem_cons, List.not_mem_nil, or_false]
    tauto

theorem foldl_smoothStep_onScreen (m : SigMap) (st : Screen) (p : String) :
    p ∈ mapKeys ((m.foldl smoothStep st).onScreen) ↔
      p ∈ mapKeys st.onScreen ∨ p ∈ mapKeys m := by
  induction m generalizing st with
  | nil => simp [mapKeys]
  | cons e m ih =>
    rw [List.foldl_cons, ih]
    have hstep : p ∈ mapKeys ((smoothStep st e).onScreen) ↔
        p = e.1 ∨ p ∈ mapKeys st.onScreen := by
      simp only [smoothStep]
      exact mem_mapKeys_mapSet _ _ _ _
    rw [hstep]
    simp only [mapKeys, List.map_cons, List.mem_cons]
    tauto

theorem foldl_smoothStep_cards (m : SigMap) (st : Screen) (p : String) :
    p ∈ (m.foldl smoothStep st).cards ↔ p ∈ st.cards ∨ p ∈ mapKeys m := by
  induction m generalizing st with
  | nil => simp [mapKeys]
  | cons e m ih =>
    rw [List.foldl_cons, ih]
    have hstep : p ∈ (smoothStep st e).cards ↔ p = e.1 ∨ p ∈ st.cards := by
      simp only [smoothStep]
      cases h : st.cards.any (fun q => q == e.1) with
      | true =>
        rw [if_pos rfl]
        have he : e.1 ∈ st.cards := by
          obtain ⟨q, hq, hqe⟩ := List.any_eq_true.mp h
          rw [beq_iff_eq] at hqe
          rwa [hqe] at hq
        constructor
        · exact fun hp => Or.inr hp
        · rintro (rfl | hp)
          · exact he
          · exact hp
      | false =>
        rw [if_neg (by simp)]
        simp only [List.mem_append, List.mem_cons, List.not_mem_nil, or_false]
        tauto
    rw [hstep]
    simp only [mapKeys, List.map_cons, List.mem_cons]
    tauto

theorem mem_keys_nmap_aux (signals : List Sig) (m0 : SigMap) (p : String) :
    p ∈ mapKeys (signals.foldl nmapStep m0) ↔
      p ∈ mapKeys m0 ∨ p ∈ nonErrorPairs signals := by
  induction signals generalizing m0 with
  | nil => simp [nonErrorPairs]
  | cons s signals ih =>
    rw [List.foldl_cons, ih]
    cases h : (s.signal == "ERROR") with
    | true =>
      rw [nmapStep, if_pos h]
      have hne : nonErrorPairs (s :: signals) = nonErrorPairs signals := by
        simp [nonErrorPairs, List.filter_cons, h]
      rw [hne]
    | false =>
      rw [nmapStep, if_neg (by simp [h])]
      rw [mem_mapKeys_mapSet]
      have hne : nonErrorPairs (s :: signals) = s.pair :: nonErrorPairs signals := by
        simp [nonErrorPairs, List.filter_cons, h]
      rw [hne]
      simp only [List.mem_cons]
      tauto

theorem mem_keys_newSignalsMapOf (signals : List Sig) (p : String) :
    p ∈ mapKeys (newSignalsMapOf signals) ↔ p ∈ nonErrorPairs signals := by
  rw [newSignalsMapOf, mem_keys_nmap_aux]
  simp [mapKeys]

theorem mem_mapKeys_filterKey (mo : SigMap) (f : String → Bool) (p : String) :
    p ∈ mapKeys (mo.filter (fun e => f e.1)) ↔ p ∈ mapKeys mo ∧ f p = true := by
  simp only [mapKeys, List.mem_map, List.mem_filter]
  constructor
  · rintro ⟨e, ⟨he, hf⟩, rfl⟩
    exact ⟨⟨e, he, rfl⟩, hf⟩
  · rintro ⟨⟨e, he, rfl⟩, hf⟩
    exact ⟨e, ⟨he, hf⟩, rfl⟩

theorem foldl_dispStep_mem (signals : List Sig) (st0 : Screen) (p : String) :
    (p ∈ (signals.foldl dispStep st0).cards ↔
       p ∈ st0.cards ∨ p ∈ nonErrorPairs signals) ∧
    (p ∈ mapKeys ((signals.foldl dispStep st0).onScreen) ↔
       p ∈ mapKeys st0.onScreen ∨ p ∈ nonErrorPairs signals) := by
  induction signals generalizing st0 with
  | nil => simp [nonErrorPairs]
  | cons s signals ih =>
    rw [List.foldl_cons]
    cases h : (s.signal == "ERROR") with
    | true =>
      have hstep : dispStep st0 s = st0 := by rw [dispStep, if_pos h]
      have hne : nonErrorPairs (s :: signals) = nonErrorPairs signals := by
        simp [nonErrorPairs, List.filter_cons, h]
      rw [hstep, hne]
      exact ih st0
    | false =>
      have hne : nonErrorPairs (s :: signals) = s.pair :: nonErrorPairs signals := by
        simp [nonErrorPairs, List.filter_cons, h]
      have hstep : dispStep st0 s =
          { cards := st0.cards ++ [s.pair], onScreen := mapSet st0.onScreen s.pair s } := by
        rw [dispStep, if_neg (by simp [h])]
      rw [hstep, hne]
      obtain ⟨ih1, ih2⟩ := ih ⟨st0.cards ++ [s.pair], mapSet st0.onScreen s.pair s⟩
      constructor
      · rw [ih1]
        simp only [List.mem_append, List.mem_cons, List.not_mem_nil, or_false]
        tauto
      · rw [ih2, mem_mapKeys_mapSet]
        simp only [List.mem_cons]
        tauto

theorem updateSignalsSmooth_nonempty (st : Screen) (s : Sig) (ss : List Sig) :
    updateSignalsSmooth st (s :: ss) =
      { cards := (((newSignalsMapOf (s :: ss)).foldl smoothStep st).cards).filter
          (fun p => mapHas (newSignalsMapOf (s :: ss)) p
            || !(mapHas ((newSignalsMapOf (s :: ss)).foldl smoothStep st).onScreen p)),
        onScreen := (((newSignalsMapOf (s :: ss)).foldl smoothStep st).onScreen).filter
          (fun e => mapHas (newSignalsMapOf (s :: ss)) e.1) } := by
  rw [updateSignalsSmooth, if_neg (by simp)]

/-- C8: after updateSignalsSmooth the rendered cards and the
currentSignalsOnScreen map hold exactly the pairs of the incoming signals
whose kind is not ERROR, provided every rendered card had a map entry before
the call; and likewise after displaySignals, which starts from a cleared
screen. -/
theorem update_display_exactly_non_error (st : Screen) (signals : List Sig)
    (hsub : st.cards.all (fun p => mapHas st.onScreen p) = true) :
    (∀ p, (p ∈ (updateSignalsSmooth st signals).cards ↔ p ∈ nonErrorPairs signals) ∧
          (p ∈ mapKeys (updateSignalsSmooth st signals).onScreen ↔
            p ∈ nonErrorPairs signals)) ∧
    (∀ p, (p ∈ (displaySignals signals).cards ↔ p ∈ nonErrorPairs signals) ∧
          (p ∈ mapKeys (displaySignals signals).onScreen ↔
            p ∈ nonErrorPairs signals)) := by
  have hsub2 : ∀ q, q ∈ st.cards → q ∈ mapKeys st.onScreen := by
    intro q hq
    exact (mapHas_iff _ _).mp (List.all_eq_true.mp hsub q hq)
  constructor
  · intro p
    cases signals with
    | nil =>
      constructor <;> simp [updateSignalsSmooth, nonErrorPairs, mapKeys]
    | cons s ss =>
      have hKm : p ∈ mapKeys (newSignalsMapOf (s :: ss)) ↔ p ∈ nonErrorPairs (s :: ss) :=
        mem_keys_newSignalsMapOf (s :: ss) p
      have hS1 : p ∈ mapKeys (((newSignalsMapOf (s :: ss)).foldl smoothStep st).onScreen) ↔
          p ∈ mapKeys st.onScreen ∨ p ∈ mapKeys (newSignalsMapOf (s :: ss)) :=
        foldl_smoothStep_onScreen (newSignalsMapOf (s :: ss)) st p
      constructor
      · rw [updateSignalsSmooth_nonempty]
        rw [List.mem_filter, foldl_smoothStep_cards]
        constructor
        · rintro ⟨hin, hg⟩
          rw [Bool.or_eq_true] at hg
          rcases hg with hm1 | hns
          · exact hKm.mp ((mapHas_iff _ _).mp hm1)
          · rw [Bool.not_eq_true'] at hns
            exfalso
            have hmem : p ∈ mapKeys (((newSignalsMapOf (s :: ss)).foldl smoothStep st).onScreen) := by
              rcases hin with hc | hk
              · exact hS1.mpr (Or.inl (hsub2 p hc))
              · exact hS1.mpr (Or.inr hk)
            have hbad := (mapHas_iff _ _).mpr hmem
            rw [hns] at hbad
            exact Bool.false_ne_true hbad
        · intro hp
          have hk : p ∈ mapKeys (newSignalsMapOf (s :: ss)) := hKm.mpr hp
          refine ⟨Or.inr hk, ?_⟩
          rw [Bool.or_eq_true]
          exact Or.inl ((mapHas_iff _ _).mpr hk)
      · rw [updateSignalsSmooth_nonempty]
        rw [mem_mapKeys_filterKey, foldl_smoothStep_onScreen]
        constructor
        · rintro ⟨_, hm1⟩
          exact hKm.mp ((mapHas_iff _ _).mp hm1)
        · intro hp
          have hk : p ∈ mapKeys (newSignalsMapOf (s :: ss)) := hKm.mpr hp
          exact ⟨Or.inr hk, (mapHas_iff _ _).mpr hk⟩
  · intro p
    obtain ⟨h1, h2⟩ := foldl_dispStep_mem signals ⟨[], []⟩ p
    rw [displaySignals]
    constructor
    · rw [h1]
      simp
    · rw [h2]
      simp [mapKeys]

def sigErrBTC : Sig := ⟨"BTC/USDT", 0, "ERROR", "0/10", 0⟩
def sigEth6 : Sig := ⟨"ETH/USDT", 10, "BUY", "6/10", 0⟩
def screen0 : Screen := ⟨["BTC/USDT"], [("BTC/USDT", sigBuy7)]⟩

/-- Witness for C8: on a concrete screen showing BTC, an update delivering a
healthy ETH signal and an ERROR BTC signal renders ETH exactly when it is a
non-ERROR pair of the new list. -/
theorem update_display_exactly_non_error_witness :
    ("ETH/USDT" ∈ (updateSignalsSmooth screen0 [sigEth6, sigErrBTC]).cards ↔
      "ETH/USDT" ∈ nonErrorPairs [sigEth6, sigErrBTC]) :=
  ((update_display_exactly_non_error screen0 [sigEth6, sigErrBTC] (by decide)).1 "ETH/USDT").1

/-! ## Claim C9: price alerts are one-shot -/

/-- An alert object as built by `addAlert` (`src/frontend/app.js` lines
478-503). -/
structure Alert where
  id : Nat
  pair : String
  price : ℚ
  condition : String
deriving DecidableEq

/-- The trigger test of `checkAlerts` (`src/frontend/app.js` lines 535-545):
find the signal of the pair; "above" fires on price at or above the alert
price, "below" on price at or below it. -/
def alertTriggered (signals : List Sig) (a : Alert) : Bool :=
  match signals.find? (fun s => s.pair == a.pair) with
  | none => false
  | some s =>
      (a.condition == "above" && decide (s.price ≥ a.price))
        || (a.condition == "below" && decide (s.price ≤ a.price))

/-- The alert-side state: the `activeAlerts` global, the persisted local
storage copy and the notifications shown so far. -/
structure AlertState where
  active : List Alert
  storage : List Alert
  notifs : List String
deriving DecidableEq

/-- The notification text shown for a triggered alert, keyed by its pair. -/
def alertMsg (a : Alert) : String :=
  "Alerta: " ++ a.pair

/-- `removeAlert` (`src/frontend/app.js` lines 506-510): drop every alert
with the id from `activeAlerts` and persist the filtered list. -/
def removeAlert (st : AlertState) (i : Nat) : AlertState :=
  { active := st.active.filter (fun b => !(b.id == i)),
    storage := st.active.filter (fun b => !(b.id == i)),
    notifs := st.notifs }

/-- One iteration of `checkAlerts` (lines 534-551): when the alert triggers,
show one notification and remove the alert; otherwise leave the state alone. -/
def alertStep (signals : List Sig) (cur : AlertState) (a : Alert) : AlertState :=
  if alertTriggered signals a then
    removeAlert { cur with notifs := cur.notifs ++ [alertMsg a] } a.id
  else cur

/-- `checkAlerts` (`src/frontend/app.js` lines 533-552): iterate over the
`activeAlerts` array as it stood at call time (JS `forEach` walks the original
array even though `removeAlert` reassigns the global). -/
def checkAlerts (st : AlertState) (signals : List Sig) : AlertState :=
  st.active.foldl (alertStep signals) st

theorem alertStep_foldl_notifs (signals : List Sig) (l : List Alert) (cur : AlertState) :
    (l.foldl (alertStep signals) cur).notifs
      = cur.notifs ++ (l.filter (alertTriggered signals)).map alertMsg := by
  induction l generalizing cur with
  | nil => simp
  | cons a l ih =>
    rw [List.foldl_cons]
    cases ht : alertTriggered signals a with
    | true =>
      rw [ih]
      have hstep : (alertStep signals cur a).notifs = cur.notifs ++ [alertMsg a] := by
        rw [alertStep, if_pos ht]
        rfl
      rw [hstep]
      simp [List.filter_cons, ht]
    | false =>
      rw [ih]
      have hstep : alertStep signals cur a = cur := by
        rw [alertStep, if_neg (by simp [ht])]
      rw [hstep]
      simp [List.filter_cons, ht]

theorem alertStep_foldl_active_mem (signals : List Sig) (l : List Alert)
    (cur : AlertState) (b : Alert)
    (hb : b ∈ (l.foldl (alertStep signals) cur).active) :
    b ∈ cur.active ∧ ∀ a ∈ l, alertTriggered signals a = true → b.id ≠ a.id := by
  induction l generalizing cur with
  | nil =>
    refine ⟨hb, ?_⟩
    intro a ha
    cases ha
  | cons a l ih =>
    rw [List.foldl_cons] at hb
    cases ht : alertTriggered signals a with
    | true =>
      obtain ⟨hb1, hb2⟩ := ih _ hb
      rw [alertStep, if_pos ht] at hb1
      simp only [removeAlert] at hb1
      rw [List.mem_filter] at hb1
      refine ⟨hb1.1, ?_⟩
      intro a2 ha2 ht2
      rcases List.mem_cons.mp ha2 with rfl | hal
      · have hne := hb1.2
        simp only [Bool.not_eq_true', beq_eq_false_iff_ne, ne_eq] at hne
        exact hne
      · exact hb2 a2 hal ht2
    | false =>
      have hstep : alertStep signals cur a = cur := by
        rw [alertStep, if_neg (by simp [ht])]
      rw [hstep] at hb
      obtain ⟨hb1, hb2⟩ := ih _ hb
      refine ⟨hb1, ?_⟩
      intro a2 ha2 ht2
      rcases List.mem_cons.mp ha2 with rfl | hal
      · rw [ht] at ht2
        cases ht2
      · exact hb2 a2 hal ht2

theorem alertStep_foldl_sync (signals : List Sig) (l : List Alert) (cur : AlertState)
    (h : cur.storage = cur.active) :
    (l.foldl (alertStep signals) cur).storage = (l.foldl (alertStep signals) cur).active := by
  induction l generalizing cur with
  | nil => exact h
  | cons a l ih =>
    rw [List.foldl_cons]
    cases ht : alertTriggered signals a with
    | true =>
      apply ih
      rw [alertStep, if_pos ht]
      rfl
    | false =>
      apply ih
      rw [alertStep, if_neg (by simp [ht])]
      exact h

theorem alertStep_foldl_storage_sync (signals : List Sig) (l : List Alert)
    (cur : AlertState) (a : Alert) (ha : a ∈ l)
    (ht : alertTriggered signals a = true) :
    (l.foldl (alertStep signals) cur).storage = (l.foldl (alertStep signals) cur).active := by
  induction l generalizing cur with
  | nil => cases ha
  | cons b l ih =>
    rw [List.foldl_cons]
    cases hbt : alertTriggered signals b with
    | true =>
      apply alertStep_foldl_sync
      rw [alertStep, if_pos hbt]
      rfl
    | false =>
      rcases List.mem_cons.mp ha with rfl | hal
      · rw [ht] at hbt
        cases hbt
      · exact ih _ hal

/-- C9: price alerts are one-shot.  A call of checkAlerts shows exactly one
notification per triggered alert of the list it was invoked on, removes every
triggered alert (by id) from the surviving activeAlerts and from the persisted
storage, and consequently no alert with the id of a triggered alert can fire a
notification in any later call, whose triggered set is drawn from the
surviving list. -/
theorem checkAlerts_one_shot (st : AlertState) (signals : List Sig) :
    ((checkAlerts st signals).notifs
        = st.notifs ++ (st.active.filter (alertTriggered signals)).map alertMsg) ∧
    (∀ a ∈ st.active, alertTriggered signals a = true →
      (∀ b ∈ (checkAlerts st signals).active, b.id ≠ a.id) ∧
      (∀ b ∈ (checkAlerts st signals).storage, b.id ≠ a.id) ∧
      (∀ (signals2 : List Sig),
        ∀ b ∈ ((checkAlerts st signals).active.filter (alertTriggered signals2)),
          b.id ≠ a.id)) := by
  refine ⟨alertStep_foldl_notifs signals st.active st, ?_⟩
  intro a ha ht
  have hmem : ∀ b ∈ (st.active.foldl (alertStep signals) st).active, b.id ≠ a.id :=
    fun b hb => (alertStep_foldl_active_mem signals st.active st b hb).2 a ha ht
  have hsync := alertStep_foldl_storage_sync signals st.active st a ha ht
  refine ⟨hmem, ?_, ?_⟩
  · intro b hb
    rw [checkAlerts] at hb
    rw [hsync] at hb
    exact hmem b hb
  · intro signals2 b hb
    exact hmem b (List.mem_filter.mp hb).1

def alertA : Alert := ⟨1, "BTC/USDT", 1, "above"⟩
def alertSt0 : AlertState := ⟨[alertA], [alertA], []⟩

/-- Witness for C9: a concrete "above 1" alert on BTC triggers against the
price-2 signal and its id is gone from the surviving alert list. -/
theorem checkAlerts_one_shot_witness :
    ∀ b ∈ (checkAlerts alertSt0 [sigBuy7]).active, b.id ≠ alertA.id :=
  ((checkAlerts_one_shot alertSt0 [sigBuy7]).2 alertA (by decide) (by decide)).1

/-! ## Claim C10: the BUY target-reached branch of checkAlvosAtingidos -/

/-- The `atingiu` computation of `checkAlvosAtingidos`
(`src/unnamed/part_001` lines 50-56): recompute the target from the CURRENT
price, then test the price against it; the if / else-if pair is the
disjunction of the two conjunctions. -/
def atingiu (s : Sig) : Bool :=
  let alvo := calcularAlvo s
  let tipo := strToUpper s.signal
  (strContains tipo "BUY" && decide (s.price ≥ alvo.valor))
    || (strContains tipo "SELL" && decide (s.price ≤ alvo.valor))

/-- State touched by `checkAlvosAtingidos`: the `atingidos` key set, the
highlighted cards and the notifications shown. -/
structure AlvoState where
  atingidos : List String
  highlighted : List String
  notifs : List String
deriving DecidableEq

/-- The repeat-guard key "pair-timeframe" (line 47). -/
def alvoKey (s : Sig) (tf : String) : String :=
  s.pair ++ "-" ++ tf

/-- The notification text of a reached target, keyed by the pair. -/
def alvoMsg (s : Sig) : String :=
  "Alvo Atingido: " ++ s.pair

/-- One iteration of `checkAlvosAtingidos` (lines 46-64): skip already-fired
keys, and on a hit record the key, highlight the card and notify. -/
def checkAlvoStep (tf : String) (st : AlvoState) (s : Sig) : AlvoState :=
  if st.atingidos.any (fun k => k == alvoKey s tf) then st
  else if atingiu s then
    { atingidos := st.atingidos ++ [alvoKey s tf],
      highlighted := st.highlighted ++ [s.pair],
      notifs := st.notifs ++ [alvoMsg s] }
  else st

/-- `checkAlvosAtingidos` (`src/unnamed/part_001` lines 45-65). -/
def checkAlvosAtingidos (tf : String) (st : AlvoState) (signals : List Sig) : AlvoState :=
  signals.foldl (checkAlvoStep tf) st

theorem atingiu_eq (s : Sig) :
    atingiu s = ((strContains (strToUpper s.signal) "BUY"
        && decide (s.price ≥ (calcularAlvo s).valor))
      || (strContains (strToUpper s.signal) "SELL"
        && decide (s.price ≤ (calcularAlvo s).valor))) := rfl

def sigBuySell : Sig := ⟨"BTC/USDT", 2, "BUY SELL", "9/10", 0⟩

/-- C10 counterexample: the signal with kind "BUY SELL", price 2 and
confidence 9 satisfies every precondition of the claim (its kind contains
"BUY", its price is positive and large enough, and the BUY test
price >= target is indeed false), yet atingiu is true through the else-if
SELL branch and checkAlvosAtingidos does fire a notification for it. -/
theorem checkAlvos_buy_branch_cex :
    strContains (strToUpper sigBuySell.signal) "BUY" = true ∧
    (0 : ℚ) < sigBuySell.price ∧
    sigBuySell.price * ((calcularAlvo sigBuySell).percentual : ℚ) / 100 ≥ 1/20000 ∧
    decide (sigBuySell.price ≥ (calcularAlvo sigBuySell).valor) = false ∧
    atingiu sigBuySell = true ∧
    (checkAlvosAtingidos "1d" ⟨[], [], []⟩ [sigBuySell]).notifs = [alvoMsg sigBuySell] := by
  have hm : margemOf sigBuySell = 6 := by decide
  have hv : (calcularAlvo sigBuySell).valor = 53/25 := by
    rw [calcularAlvo_buy_valor _ (by decide), hm]
    show toFixed4 ((2 : ℚ) * (1 + (6 : ℚ) / 100)) = 53/25
    norm_num [toFixed4, round_eq]
  have hdec : decide (sigBuySell.price ≥ (calcularAlvo sigBuySell).valor) = false := by
    rw [decide_eq_false_iff_not, hv]
    show ¬ ((2 : ℚ) ≥ 53/25)
    norm_num
  have hat : atingiu sigBuySell = true := by
    rw [atingiu_eq, hv]
    have hs : strContains (strToUpper sigBuySell.signal) "SELL" = true := by decide
    have hle : ((sigBuySell.price : ℚ) ≤ 53/25) := by
      show ((2 : ℚ) ≤ 53/25)
      norm_num
    simp [hs, decide_eq_true hle]
  refine ⟨by decide, by norm_num [sigBuySell], ?_, hdec, hat, ?_⟩
  · rw [calcularAlvo_percentual, hm]
    show (2 : ℚ) * ((6 : ℕ) : ℚ) / 100 ≥ 1/20000
    norm_num
  · rw [checkAlvosAtingidos, List.foldl_cons, List.foldl_nil, checkAlvoStep,
      if_neg (by simp), if_pos hat]
    simp

/-- C10 (amended): the BUY target-reached branch is unreachable once the kind
does not also contain "SELL": for every signal whose uppercased kind contains
"BUY" but not "SELL", with positive price and price times band over 100 at
least 1/20000, the recomputed 4-decimal target stays strictly above the
price, the test price >= target is false, atingiu is false, and
checkAlvosAtingidos leaves any state unchanged for that signal. -/
theorem checkAlvos_buy_branch_unreachable (s : Sig)
    (hb : strContains (strToUpper s.signal) "BUY" = true)
    (hs : strContains (strToUpper s.signal) "SELL" = false)
    (hp : 0 < s.price)
    (hq : s.price * ((calcularAlvo s).percentual : ℚ) / 100 ≥ 1/20000) :
    decide (s.price ≥ (calcularAlvo s).valor) = false ∧
    atingiu s = false ∧
    (∀ (tf : String) (st : AlvoState), checkAlvoStep tf st s = st) ∧
    (∀ (tf : String) (st : AlvoState), checkAlvosAtingidos tf st [s] = st) := by
  have hm : ((calcularAlvo s).percentual : ℚ) = ((margemOf s : ℕ) : ℚ) := by
    rw [calcularAlvo_percentual]
  rw [hm] at hq
  have hX : s.price * (1 + (margemOf s : ℚ) / 100)
      = s.price + s.price * (margemOf s : ℚ) / 100 := by ring
  have hgt : s.price < (calcularAlvo s).valor := by
    rw [calcularAlvo_buy_valor s hb, hX]
    have h1 := toFixed4_gt (s.price + s.price * (margemOf s : ℚ) / 100)
    linarith
  have hdec : decide (s.price ≥ (calcularAlvo s).valor) = false := by
    rw [decide_eq_false_iff_not]
    exact not_le.mpr hgt
  have hat : atingiu s = false := by
    rw [atingiu_eq, hb, hs, hdec]
    simp
  have hstep : ∀ (tf : String) (st : AlvoState), checkAlvoStep tf st s = st := by
    intro tf st
    rw [checkAlvoStep]
    cases hk : st.atingidos.any (fun k => k == alvoKey s tf) with
    | true => rw [if_pos rfl]
    | false => rw [if_neg (by simp), if_neg (by simp [hat])]
  refine ⟨hdec, hat, hstep, ?_⟩
  intro tf st
  rw [checkAlvosAtingidos, List.foldl_cons, List.foldl_nil, hstep tf st]

/-- Witness for C10 (amended) at the concrete BUY signal with price 2 and
confidence 7: the BUY test is false. -/
theorem checkAlvos_buy_branch_unreachable_witness :
    decide (sigBuy7.price ≥ (calcularAlvo sigBuy7).valor) = false :=
  (checkAlvos_buy_branch_unreachable sigBuy7 (by decide) (by decide)
    (by norm_num [sigBuy7])
    (by
      rw [calcularAlvo_percentual]
      have hm : margemOf sigBuy7 = 4 := by decide
      rw [hm]
      show (2 : ℚ) * ((4 : ℕ) : ℚ) / 100 ≥ 1/20000
      norm_num)).1
